import Mathlib

/-!
Verification of the School_Dashboard Flask application
(src/school_dashboard/app.py) against its natural-language
specification.

The embedding is shallow:

* SQLite's `assessments` table becomes a `DB` structure holding the rows
  in insertion order together with the next AUTOINCREMENT id.  The
  `NOT NULL` constraints of the schema (on `subject` and `title`) are part
  of `add_assessment`, which fails exactly when SQLite would raise an
  `IntegrityError`.  `ORDER BY due_date` is modelled with a sort by the
  SQLite ordering on a nullable TEXT column: `NULL` sorts before every
  string, and two strings compare with the default BINARY collation,
  which on UTF-8 text coincides with lexicographic comparison of code
  points (Lean's `String` order).
* Python `None`-able strings become `Option String`.
* `datetime` values are explicit `PyDateTime` records passed where the
  code reads the ambient clock (`now_kst`); `date.isoformat` is
  reproduced literally with the fixed `+09:00` offset of Asia/Seoul.
* Calendar dates are day ordinals (`Nat`, days since a fixed Monday), so
  `date.weekday()` is `d % 7` with Monday = 0, matching Python.
* `datetime.time` values are seconds since midnight.
* The NEIS network calls are fallible inputs: a fetch is a value of
  `Except FetchError _`, and the `try/except` blocks at the call sites
  pattern-match on it.  The response-shaping code inside the coroutines
  (`row.DDISH_NM` splitting, `int(r.PERIO)` parsing, sorting) is embedded
  directly.
-/

namespace SchoolDashboard

/-- A wall-clock instant as produced by `now_kst()` (a timezone-aware
`datetime` in Asia/Seoul). -/
structure PyDateTime where
  year : Nat
  month : Nat
  day : Nat
  hour : Nat
  minute : Nat
  second : Nat
  microsecond : Nat
deriving DecidableEq, Repr

/-- Zero-padding to two digits, as in `datetime.isoformat`. -/
def pad2 (n : Nat) : String :=
  if n < 10 then "0" ++ toString n else toString n

/-- Zero-padding to four digits (the year field of `isoformat`). -/
def pad4 (n : Nat) : String :=
  if n < 10 then "000" ++ toString n
  else if n < 100 then "00" ++ toString n
  else if n < 1000 then "0" ++ toString n
  else toString n

/-- Zero-padding to six digits (the microsecond field of `isoformat`). -/
def pad6 (n : Nat) : String :=
  if n < 10 then "00000" ++ toString n
  else if n < 100 then "0000" ++ toString n
  else if n < 1000 then "000" ++ toString n
  else if n < 10000 then "00" ++ toString n
  else if n < 100000 then "0" ++ toString n
  else toString n

/-- `now_kst().isoformat()` : `YYYY-MM-DDTHH:MM:SS[.ffffff]+09:00`.
Python omits the microsecond field when it is zero; the UTC offset of
`Asia/Seoul` is the constant `+09:00`. -/
def isoformat (t : PyDateTime) : String :=
  pad4 t.year ++ "-" ++ pad2 t.month ++ "-" ++ pad2 t.day ++ "T" ++
    pad2 t.hour ++ ":" ++ pad2 t.minute ++ ":" ++ pad2 t.second ++
    (if t.microsecond == 0 then "" else "." ++ pad6 t.microsecond) ++
    "+09:00"

/-- One row of the `assessments` table (`init_db`, app.py lines 36-50):
`id INTEGER PRIMARY KEY AUTOINCREMENT, subject TEXT NOT NULL,
title TEXT NOT NULL, due_date TEXT, detail TEXT, created_at TEXT`.
Nullable columns are `Option String`. -/
structure Row where
  id : Nat
  subject : Option String
  title : Option String
  due_date : Option String
  detail : Option String
  created_at : String
deriving DecidableEq, Repr

/-- The SQLite database file `data.db`: the stored rows in insertion
(rowid) order, and the next AUTOINCREMENT id. -/
structure DB where
  rows : List Row
  nextId : Nat
deriving DecidableEq, Repr

/-- The storage-layer error raised by `sqlite3` when an `INSERT` binds
`None` to a `NOT NULL` column (`IntegrityError`). -/
inductive SqlError where
  | notNullViolation
deriving DecidableEq, Repr

/-- SQLite's ordering of the nullable TEXT column `due_date` under
`ORDER BY due_date` (ascending, default): `NULL` sorts before every
string, and strings compare by the BINARY collation, i.e. code-point
lexicographic order. -/
def dueLe : Option String → Option String → Bool
  | none, _ => true
  | some _, none => false
  | some a, some b => decide (a ≤ b)

/-- Row ordering used by `get_assessments`' `ORDER BY due_date`. -/
def RowLe (a b : Row) : Prop := dueLe a.due_date b.due_date = true

instance : DecidableRel RowLe := fun a b =>
  inferInstanceAs (Decidable (dueLe a.due_date b.due_date = true))

instance : IsTotal Row RowLe :=
  ⟨fun a b => by
    unfold RowLe
    cases a.due_date <;> cases b.due_date <;> simp [dueLe]
    exact le_total _ _⟩

instance : IsTrans Row RowLe :=
  ⟨fun a b c h1 h2 => by
    unfold RowLe at h1 h2 ⊢
    cases ha : a.due_date <;> cases hb : b.due_date <;> cases hc : c.due_date <;>
      simp_all [dueLe]
    exact le_trans h1 h2⟩

/-- The row that one `INSERT INTO assessments` statement creates
(app.py lines 59-65): the supplied four fields plus
`now_kst().isoformat()` and the fresh AUTOINCREMENT id. -/
def newRow (t : PyDateTime) (subject title due_date detail : Option String)
    (db : DB) : Row :=
  { id := db.nextId
    subject := subject
    title := title
    due_date := due_date
    detail := detail
    created_at := isoformat t }

/-- `add_assessment(subject, title, due_date, detail)` (app.py lines
56-67).  The clock value `t` stands for the ambient `now_kst()` call.
Binding `None` to the `NOT NULL` columns `subject` or `title` makes
SQLite raise, which propagates out of the function. -/
def add_assessment (t : PyDateTime)
    (subject title due_date detail : Option String) (db : DB) :
    Except SqlError DB :=
  if subject.isNone || title.isNone then
    Except.error SqlError.notNullViolation
  else
    Except.ok
      { rows := db.rows ++ [newRow t subject title due_date detail db]
        nextId := db.nextId + 1 }

/-- `get_assessments()` (app.py lines 70-82):
`SELECT ... FROM assessments ORDER BY due_date`. -/
def get_assessments (db : DB) : List Row :=
  List.insertionSort RowLe db.rows

/-- One `add_assessment` call: its clock reading and the four supplied
field values. -/
structure AddCmd where
  t : PyDateTime
  subject : Option String
  title : Option String
  due_date : Option String
  detail : Option String

/-- The store state after one `add_assessment` call; a storage-layer
failure leaves the database unchanged (the transaction is never
committed). -/
def applyAdd (db : DB) (c : AddCmd) : DB :=
  match add_assessment c.t c.subject c.title c.due_date c.detail db with
  | Except.ok db' => db'
  | Except.error _ => db

/-- The store state after a sequence of `add_assessment` calls. -/
def runAdds : DB → List AddCmd → DB
  | db, [] => db
  | db, c :: cs => runAdds (applyAdd db c) cs

/-- The records actually inserted by a sequence of `add_assessment`
calls (calls rejected by the `NOT NULL` constraint insert nothing). -/
def insertedRows : DB → List AddCmd → List Row
  | _, [] => []
  | db, c :: cs =>
    match add_assessment c.t c.subject c.title c.due_date c.detail db with
    | Except.ok _ =>
        newRow c.t c.subject c.title c.due_date c.detail db ::
          insertedRows (applyAdd db c) cs
    | Except.error _ => insertedRows (applyAdd db c) cs

/-- Flask's `request.form.get(key)`: the first value submitted for the
key, or `None` when the field is missing. -/
def formGet (form : List (String × String)) (key : String) : Option String :=
  (form.find? (fun kv => kv.1 == key)).map (fun kv => kv.2)

/-- The `POST /assess` branch of `assess()` (app.py lines 289-296): the
four form fields are read with `request.form.get` and passed straight to
`add_assessment`; success redirects, an uncaught storage error fails the
request. -/
def assess_post (t : PyDateTime) (form : List (String × String)) (db : DB) :
    Except SqlError DB :=
  add_assessment t (formGet form "subject") (formGet form "title")
    (formGet form "due_date") (formGet form "detail") db

/-- The Korean weekday labels `["월", "화", "수", "목", "금", "토", "일"]`. -/
def weekday_kor : List String := ["월", "화", "수", "목", "금", "토", "일"]

/-- `date.weekday()` on a day ordinal (days since a fixed Monday):
Monday = 0 ... Sunday = 6, as in Python. -/
def weekday (d : Nat) : Nat := d % 7

/-- `get_week_dates()` (app.py lines 222-226): Monday through Friday of
the week containing `today`, via
`monday = today - timedelta(days=today.weekday())`. -/
def get_week_dates (today : Nat) : List Nat :=
  (List.range 5).map (fun i => (today - weekday today) + i)

/-- `datetime.time(h, m)` as seconds since midnight. -/
def hm (h m : Nat) : Nat := h * 3600 + m * 60

/-- The hard-coded `PERIOD_TIMES` table (app.py lines 229-237). -/
def PERIOD_TIMES : List (Nat × Nat × Nat) :=
  [ (1, hm 8 40, hm 9 30),
    (2, hm 9 40, hm 10 30),
    (3, hm 10 40, hm 11 30),
    (4, hm 11 40, hm 12 30),
    (5, hm 13 30, hm 14 20),
    (6, hm 14 30, hm 15 20),
    (7, hm 15 30, hm 16 20) ]

/-- The loop body of `get_current_and_next_period` (app.py lines
245-256): first period whose inclusive `[start, end]` window contains
`now` wins, with the following table entry (if any) as "next"; a period
starting after `now` ends the scan with no current period; exhausting
the table yields `(None, None)`. -/
def periodScan (now : Nat) : List (Nat × Nat × Nat) → Option Nat × Option Nat
  | [] => (none, none)
  | (p, s, e) :: rest =>
    if s ≤ now && now ≤ e then
      (some p, (rest.head?).map (fun q => q.1))
    else if now < s then
      (none, some p)
    else
      periodScan now rest

/-- `get_current_and_next_period()` (app.py lines 240-256); `now` stands
for `now_kst().time()`. -/
def get_current_and_next_period (now : Nat) : Option Nat × Option Nat :=
  periodScan now PERIOD_TIMES

/-- A failure of one NEIS call: unreachable network, a payload whose
shape breaks the attribute/index accesses, or a `PERIO` field that
`int()` rejects.  All of them surface as an exception from
`asyncio.run`. -/
inductive FetchError where
  | network
  | parse
  | malformed
deriving DecidableEq, Repr

/-- One row of a `mealServiceDietInfo` response. -/
structure MealApiRow where
  DDISH_NM : String
deriving DecidableEq, Repr

/-- Python `raw.split("<br/>")` on the character list of `raw`:
left-to-right scan cutting at each non-overlapping occurrence of the
five-character delimiter. -/
def splitBrAux : List Char → List Char → List (List Char)
  | [], acc => [acc.reverse]
  | '<' :: 'b' :: 'r' :: '/' :: '>' :: rest, acc =>
      acc.reverse :: splitBrAux rest []
  | c :: rest, acc => splitBrAux rest (c :: acc)

/-- Whether the delimiter `"<br/>"` occurs anywhere in the text. -/
def hasBr : List Char → Bool
  | [] => false
  | '<' :: 'b' :: 'r' :: '/' :: '>' :: _ => true
  | _ :: rest => hasBr rest

/-- The whitespace characters removed by Python `str.strip()` (the ASCII
ones; the dish strings contain no exotic Unicode whitespace). -/
def pyIsSpace (c : Char) : Bool :=
  c == ' ' || c == '\t' || c == '\n' || c == '\r' || c == '\x0b' || c == '\x0c'

/-- Python `str.strip()`: drop whitespace from both ends. -/
def pyStrip (l : List Char) : List Char :=
  ((l.dropWhile pyIsSpace).reverse.dropWhile pyIsSpace).reverse

/-- The dish list `[d.strip() for d in raw.split("<br/>")]`
(app.py line 116). -/
def mealDishes (raw : String) : List String :=
  (splitBrAux raw.data []).map (fun cs => String.mk (pyStrip cs))

/-- The body of `_async_meal_for_ymd` after the response arrives
(app.py lines 110-116): no rows yield `[]`, otherwise the first row's
`DDISH_NM` is split and stripped. -/
def _async_meal_for_ymd (rows : List MealApiRow) : List String :=
  match rows with
  | [] => []
  | row :: _ => mealDishes row.DDISH_NM

/-- The `try/except` of `get_today_meal()` (app.py lines 119-125): the
outcome of `asyncio.run(_async_meal_for_ymd(...))` degrades to `[]` on
any exception. -/
def get_today_meal (outcome : Except FetchError (List String)) : List String :=
  match outcome with
  | Except.ok dishes => dishes
  | Except.error _ => []

/-- One entry of the `get_week_meals()` result (app.py lines 142-148).
The date is kept as its day ordinal. -/
structure MealDay where
  date : Nat
  weekday : String
  dishes : List String
deriving DecidableEq, Repr

/-- `get_week_meals()` (app.py lines 128-149): for each of the five week
dates, the day's fetch outcome is caught independently and degrades to
`[]` for that day alone. -/
def get_week_meals (today : Nat)
    (fetchMeal : Nat → Except FetchError (List String)) : List MealDay :=
  (get_week_dates today).map (fun d =>
    { date := d
      weekday := weekday_kor.getD (weekday d) ""
      dishes :=
        match fetchMeal d with
        | Except.ok dishes => dishes
        | Except.error _ => [] })

/-- One row of a `hisTimetable` response. -/
structure TimetableApiRow where
  PERIO : String
  ITRT_CNTNT : String
deriving DecidableEq, Repr

/-- Accumulating decimal parse of a digit string (no digits rejected). -/
def parseDigitsAux : Nat → List Char → Option Nat
  | acc, [] => some acc
  | acc, c :: rest =>
    if c.isDigit then parseDigitsAux (10 * acc + (c.toNat - 48)) rest
    else none

/-- Python `int(s)` restricted to the optional-sign decimal strings NEIS
sends in `PERIO`: digits with an optional leading minus sign parse, and
anything else raises `ValueError` (a `FetchError.parse`). -/
def pyInt (s : String) : Except FetchError Int :=
  match s.data with
  | [] => Except.error FetchError.parse
  | '-' :: rest =>
    match rest, parseDigitsAux 0 rest with
    | _ :: _, some n => Except.ok (-(n : Int))
    | _, _ => Except.error FetchError.parse
  | l =>
    match parseDigitsAux 0 l with
    | some n => Except.ok (n : Int)
    | none => Except.error FetchError.parse

/-- The `for r in rows` loop of `_async_timetable_for_date` (app.py
lines 166-170): one `(int(r.PERIO), r.ITRT_CNTNT)` pair per row, in
source order, aborting on the first unparsable `PERIO`. -/
def parseRows : List TimetableApiRow → Except FetchError (List (Int × String))
  | [] => Except.ok []
  | r :: rest =>
    match pyInt r.PERIO, parseRows rest with
    | Except.ok p, Except.ok tail => Except.ok ((p, r.ITRT_CNTNT) :: tail)
    | Except.error e, _ => Except.error e
    | _, Except.error e => Except.error e

/-- The comparison behind `result.sort(key=lambda x: x[0])`. -/
def PairPeriodLe (a b : Int × String) : Prop := a.1 ≤ b.1

instance : DecidableRel PairPeriodLe := fun a b =>
  inferInstanceAs (Decidable (a.1 ≤ b.1))

instance : IsTotal (Int × String) PairPeriodLe :=
  ⟨fun a b => le_total a.1 b.1⟩

instance : IsTrans (Int × String) PairPeriodLe :=
  ⟨fun _ _ _ h1 h2 => le_trans h1 h2⟩

/-- The body of `_async_timetable_for_date` after the response arrives
(app.py lines 164-172): build one pair per row, then
`result.sort(key=lambda x: x[0])`. -/
def _async_timetable_for_date (rows : List TimetableApiRow) :
    Except FetchError (List (Int × String)) :=
  match parseRows rows with
  | Except.ok result => Except.ok (List.insertionSort PairPeriodLe result)
  | Except.error e => Except.error e

/-- The `try/except` of `get_today_timetable()` (app.py lines 175-187). -/
def get_today_timetable (outcome : Except FetchError (List (Int × String))) :
    List (Int × String) :=
  match outcome with
  | Except.ok rows => rows
  | Except.error _ => []

/-- One entry of the `get_week_timetable()` result (app.py lines
209-215). -/
structure TimetableDay where
  date : Nat
  weekday : String
  rows : List (Int × String)
deriving DecidableEq, Repr

/-- `get_week_timetable()` (app.py lines 190-216): per-day fetch with an
independent `try/except` degrading that day alone to `[]`. -/
def get_week_timetable (today : Nat)
    (fetchTimetable : Nat → Except FetchError (List (Int × String))) :
    List TimetableDay :=
  (get_week_dates today).map (fun d =>
    { date := d
      weekday := weekday_kor.getD (weekday d) ""
      rows :=
        match fetchTimetable d with
        | Except.ok rows => rows
        | Except.error _ => [] })

/-- A concrete clock value used by the concrete-input theorems. -/
def t0 : PyDateTime :=
  { year := 2026, month := 10, day := 12, hour := 9, minute := 30,
    second := 0, microsecond := 0 }

/-- A concrete week-meal fetch whose day 7 fails. -/
def wMealFetch : Nat → Except FetchError (List String) := fun d =>
  if d = 7 then Except.error FetchError.network else Except.ok ["밥"]

/-- A concrete week-meal fetch agreeing with `wMealFetch` off day 7. -/
def wMealFetch' : Nat → Except FetchError (List String) := fun d =>
  if d = 7 then Except.ok ["국"] else Except.ok ["밥"]

/-- A concrete week-timetable fetch whose day 7 fails. -/
def wTimeFetch : Nat → Except FetchError (List (Int × String)) := fun d =>
  if d = 7 then Except.error FetchError.network else Except.ok [(1, "수학")]

/-- A concrete week-timetable fetch agreeing with `wTimeFetch` off day 7. -/
def wTimeFetch' : Nat → Except FetchError (List (Int × String)) := fun d =>
  if d = 7 then Except.ok [(2, "영어")] else Except.ok [(1, "수학")]

/-! Helper lemmas. -/

theorem isoformat_ne_empty (t : PyDateTime) : isoformat t ≠ "" := by
  intro h
  have h' := congrArg String.length h
  simp only [isoformat, String.length_append] at h'
  have h6 : ("+09:00" : String).length = 6 := rfl
  rw [h6] at h'
  have h0 : ("" : String).length = 0 := rfl
  rw [h0] at h'
  omega

theorem add_assessment_ok_iff (t : PyDateTime)
    (subject title due_date detail : Option String) (db db' : DB) :
    add_assessment t subject title due_date detail db = Except.ok db' ↔
      (subject.isNone || title.isNone) = false ∧
      db' = { rows := db.rows ++ [newRow t subject title due_date detail db]
              nextId := db.nextId + 1 } := by
  unfold add_assessment
  split
  · rename_i hcond
    constructor
    · intro h
      exact absurd h (by simp)
    · rintro ⟨hf, -⟩
      rw [hcond] at hf
      exact absurd hf (by simp)
  · rename_i hcond
    constructor
    · intro h
      refine ⟨?_, (Except.ok.inj h).symm⟩
      cases hsub : subject.isNone <;> cases htit : title.isNone <;> simp_all
    · rintro ⟨-, rfl⟩
      rfl

theorem runAdds_rows (db : DB) (cmds : List AddCmd) :
    (runAdds db cmds).rows = db.rows ++ insertedRows db cmds := by
  induction cmds generalizing db with
  | nil => simp [runAdds, insertedRows]
  | cons c cs ih =>
    have hrun : runAdds db (c :: cs) = runAdds (applyAdd db c) cs := rfl
    rw [hrun, ih]
    cases h : add_assessment c.t c.subject c.title c.due_date c.detail db with
    | ok db' =>
      obtain ⟨-, hdb'⟩ :=
        (add_assessment_ok_iff c.t c.subject c.title c.due_date c.detail db db').1 h
      have ha : applyAdd db c = db' := by unfold applyAdd; rw [h]
      have hins : insertedRows db (c :: cs) =
          newRow c.t c.subject c.title c.due_date c.detail db ::
            insertedRows (applyAdd db c) cs := by
        simp only [insertedRows]; rw [h]
      rw [hins, ha, hdb']
      simp
    | error e =>
      have ha : applyAdd db c = db := by unfold applyAdd; rw [h]
      have hins : insertedRows db (c :: cs) = insertedRows (applyAdd db c) cs := by
        simp only [insertedRows]; rw [h]
      rw [hins, ha]

/-! The claims. -/

/-- Claim C1: for any sequence of `add_assessment` calls starting from any
store state, `get_assessments` returns exactly the records inserted by
those calls plus the pre-existing records, ordered non-decreasing by the
stored `due_date` (SQLite text order), and in particular lexicographically
non-decreasing on the records whose `due_date` is an actual string. -/
theorem get_assessments_after_adds (db : DB) (cmds : List AddCmd) :
    (get_assessments (runAdds db cmds)).Perm (db.rows ++ insertedRows db cmds) ∧
    List.Sorted RowLe (get_assessments (runAdds db cmds)) ∧
    List.Pairwise
      (fun a b => ∀ s u, a.due_date = some s → b.due_date = some u → s ≤ u)
      (get_assessments (runAdds db cmds)) := by
  refine ⟨?_, ?_, ?_⟩
  · rw [← runAdds_rows db cmds]
    exact List.perm_insertionSort RowLe (runAdds db cmds).rows
  · exact List.sorted_insertionSort RowLe (runAdds db cmds).rows
  · refine List.Pairwise.imp (fun {a b} hab => ?_)
      (List.sorted_insertionSort RowLe (runAdds db cmds).rows)
    intro s u hs hu
    unfold RowLe at hab
    rw [hs, hu] at hab
    simpa [dueLe] using hab

/-- Claim C9: in the `get_assessments` output, every record whose
`due_date` is absent (NULL) appears before every record whose `due_date`
is a string, because SQLite sorts NULLs first in ascending order. -/
theorem get_assessments_nulls_first (db : DB) :
    List.Pairwise (fun a b => b.due_date = none → a.due_date = none)
      (get_assessments db) := by
  refine List.Pairwise.imp (fun {a b} hab => ?_)
    (List.sorted_insertionSort RowLe db.rows)
  intro hb
  cases ha : a.due_date with
  | none => rfl
  | some s =>
    unfold RowLe at hab
    rw [ha, hb] at hab
    simp [dueLe] at hab

/-- Claim C4: a record created by a successful `add_assessment` comes back
from `get_assessments` with the supplied subject, title, due_date and
detail unchanged, and with a populated, non-empty `created_at`. -/
theorem add_then_list_roundtrip (t : PyDateTime)
    (subject title due_date detail : Option String) (db db' : DB)
    (h : add_assessment t subject title due_date detail db = Except.ok db') :
    ∃ r ∈ get_assessments db',
      r.id = db.nextId ∧ r.subject = subject ∧ r.title = title ∧
      r.due_date = due_date ∧ r.detail = detail ∧
      r.created_at = isoformat t ∧ r.created_at ≠ "" := by
  obtain ⟨-, rfl⟩ :=
    (add_assessment_ok_iff t subject title due_date detail db db').1 h
  refine ⟨newRow t subject title due_date detail db, ?_,
    rfl, rfl, rfl, rfl, rfl, rfl, isoformat_ne_empty t⟩
  exact ((List.perm_insertionSort RowLe
    (db.rows ++ [newRow t subject title due_date detail db])).mem_iff).2 (by simp)

/-- Witness for C4 at a concrete input. -/
theorem add_then_list_roundtrip_witness :
    ∃ r ∈ get_assessments
        { rows := [newRow t0 (some "수학") (some "단원평가") (some "2026-10-20")
            (some "3단원") { rows := [], nextId := 1 }]
          nextId := 2 },
      r.id = 1 ∧ r.subject = some "수학" ∧ r.title = some "단원평가" ∧
      r.due_date = some "2026-10-20" ∧ r.detail = some "3단원" ∧
      r.created_at = isoformat t0 ∧ r.created_at ≠ "" :=
  add_then_list_roundtrip t0 (some "수학") (some "단원평가") (some "2026-10-20")
    (some "3단원") { rows := [], nextId := 1 } _ rfl

/-- Counterexample to claim C2 as stated: a POST whose form omits the
`subject` field is not stored; the INSERT violates the `NOT NULL`
constraint on `subject` and the uncaught `IntegrityError` rejects the
request. -/
theorem assess_post_missing_subject :
    assess_post t0
      [("title", "단원평가"), ("due_date", "2026-10-20"), ("detail", "3단원")]
      { rows := [], nextId := 1 } =
      Except.error SqlError.notNullViolation := rfl

/-- Claim C2 (amended): a missing `due_date` or `detail` field is stored
as NULL without the request being rejected, but a missing `subject` or
`title` field makes the INSERT violate a `NOT NULL` constraint and the
request fails. -/
theorem assess_post_validation (t : PyDateTime)
    (form : List (String × String)) (db : DB) :
    (∀ s u, formGet form "subject" = some s → formGet form "title" = some u →
      assess_post t form db = Except.ok
        { rows := db.rows ++ [newRow t (some s) (some u)
            (formGet form "due_date") (formGet form "detail") db]
          nextId := db.nextId + 1 }) ∧
    (formGet form "subject" = none ∨ formGet form "title" = none →
      assess_post t form db = Except.error SqlError.notNullViolation) := by
  constructor
  · intro s u hs hu
    unfold assess_post
    rw [hs, hu]
    rfl
  · intro hcase
    unfold assess_post
    rcases hcase with hn | hn
    · rw [hn]
      rfl
    · rw [hn]
      cases hs : formGet form "subject" <;> rfl

/-- Witness for the amended C2 at a concrete input: `due_date` missing
from the form, `subject` and `title` present. -/
theorem assess_post_validation_witness :
    assess_post t0 [("subject", "국어"), ("title", "발표"), ("detail", "시집")]
      { rows := [], nextId := 1 } =
      Except.ok
        { rows := [newRow t0 (some "국어") (some "발표") none (some "시집")
            { rows := [], nextId := 1 }]
          nextId := 2 } :=
  (assess_post_validation t0
      [("subject", "국어"), ("title", "발표"), ("detail", "시집")]
      { rows := [], nextId := 1 }).1 "국어" "발표" rfl rfl

/-- Claim C3: `get_current_and_next_period` scans the fixed 7-entry
`PERIOD_TIMES` table in order with inclusive `[start, end]` windows, and
at 08:45 yields (1, 2), at 09:35 yields (none, 2), at 08:00 yields
(none, 1) and at 17:00 yields (none, none). -/
theorem period_lookup_correct :
    PERIOD_TIMES.length = 7 ∧
    get_current_and_next_period (hm 8 45) = (some 1, some 2) ∧
    get_current_and_next_period (hm 9 35) = (none, some 2) ∧
    get_current_and_next_period (hm 8 0) = (none, some 1) ∧
    get_current_and_next_period (hm 17 0) = (none, none) ∧
    (PERIOD_TIMES.all (fun x =>
      decide ((get_current_and_next_period x.2.1).1 = some x.1) &&
        decide ((get_current_and_next_period x.2.2).1 = some x.1))) = true := by
  decide

/-- Claim C6: `get_week_dates` always returns exactly 5 consecutive
calendar dates starting at Monday of the current week (today minus the
ISO weekday offset), for every value of today — weekends included. -/
theorem week_dates_monday_five (today : Nat) :
    get_week_dates today =
      [today - weekday today, today - weekday today + 1,
        today - weekday today + 2, today - weekday today + 3,
        today - weekday today + 4] ∧
    weekday (today - weekday today) = 0 := by
  constructor
  · rfl
  · unfold weekday
    omega

/-- Claim C8: the raw dish field splits on the `"<br/>"` delimiter into
whitespace-trimmed pieces in original order; the example field yields
exactly its three dishes. -/
theorem meal_dish_split_example :
    _async_meal_for_ymd [MealApiRow.mk "밥(1.2.)<br/>국(5.6.)<br/>김치"] =
      ["밥(1.2.)", "국(5.6.)", "김치"] ∧
    mealDishes " 밥(1.2.) <br/> 국(5.6.)<br/>김치 " =
      ["밥(1.2.)", "국(5.6.)", "김치"] := by
  decide

theorem forall2_map_of_forall {α β : Type} (P : β → β → Prop) (f g : α → β) :
    ∀ l : List α, (∀ a ∈ l, P (f a) (g a)) →
      List.Forall₂ P (l.map f) (l.map g)
  | [], _ => List.Forall₂.nil
  | a :: l, h =>
    List.Forall₂.cons (h a (List.mem_cons_self a l))
      (forall2_map_of_forall P f g l (fun x hx => h x (List.mem_cons_of_mem a hx)))

/-- Claim C5: every meal or timetable fetch failure is caught at the call
site and degrades to an empty sequence, and in the week views each of the
5 days degrades independently: a failing day yields an empty result for
that day only, and fetches that agree on all other days produce entries
that agree everywhere except possibly at the failing day. -/
theorem fetch_failures_degrade (today d : Nat) (e : FetchError)
    (fm fm' : Nat → Except FetchError (List String))
    (ft ft' : Nat → Except FetchError (List (Int × String))) :
    get_today_meal (Except.error e) = [] ∧
    get_today_timetable (Except.error e) = [] ∧
    (fm d = Except.error e →
      ∀ m ∈ get_week_meals today fm, m.date = d → m.dishes = []) ∧
    (ft d = Except.error e →
      ∀ x ∈ get_week_timetable today ft, x.date = d → x.rows = []) ∧
    ((∀ x, x ≠ d → fm x = fm' x) →
      List.Forall₂ (fun a b => a.date ≠ d → a = b)
        (get_week_meals today fm) (get_week_meals today fm')) ∧
    ((∀ x, x ≠ d → ft x = ft' x) →
      List.Forall₂ (fun a b => a.date ≠ d → a = b)
        (get_week_timetable today ft) (get_week_timetable today ft')) := by
  refine ⟨rfl, rfl, ?_, ?_, ?_, ?_⟩
  · intro hf m hmem hdate
    unfold get_week_meals at hmem
    obtain ⟨x, -, rfl⟩ := List.mem_map.1 hmem
    dsimp only at hdate ⊢
    rw [hdate, hf]
  · intro hf x hmem hdate
    unfold get_week_timetable at hmem
    obtain ⟨y, -, rfl⟩ := List.mem_map.1 hmem
    dsimp only at hdate ⊢
    rw [hdate, hf]
  · intro hagree
    unfold get_week_meals
    refine forall2_map_of_forall _ _ _ (get_week_dates today) ?_
    intro x _ hne
    dsimp only at hne ⊢
    rw [hagree x hne]
  · intro hagree
    unfold get_week_timetable
    refine forall2_map_of_forall _ _ _ (get_week_dates today) ?_
    intro x _ hne
    dsimp only at hne ⊢
    rw [hagree x hne]

/-- Witness for C5: the week containing day 9 is days 7 through 11; the
fetch for day 7 fails, that day's entry is empty, and a fetch differing
only at day 7 changes no other day's entry. -/
theorem fetch_failures_degrade_witness :
    (∀ m ∈ get_week_meals 9 wMealFetch, m.date = 7 → m.dishes = []) ∧
    (∀ x ∈ get_week_timetable 9 wTimeFetch, x.date = 7 → x.rows = []) ∧
    List.Forall₂ (fun a b => a.date ≠ 7 → a = b)
      (get_week_meals 9 wMealFetch) (get_week_meals 9 wMealFetch') ∧
    List.Forall₂ (fun a b => a.date ≠ 7 → a = b)
      (get_week_timetable 9 wTimeFetch) (get_week_timetable 9 wTimeFetch') := by
  obtain ⟨-, -, h3, h4, h5, h6⟩ :=
    fetch_failures_degrade 9 7 FetchError.network wMealFetch wMealFetch'
      wTimeFetch wTimeFetch'
  refine ⟨h3 rfl, h4 rfl, h5 ?_, h6 ?_⟩
  · intro x hx
    unfold wMealFetch wMealFetch'
    simp [hx]
  · intro x hx
    unfold wTimeFetch wTimeFetch'
    simp [hx]

theorem parseRows_forall2 :
    ∀ (rows : List TimetableApiRow) (raw : List (Int × String)),
      parseRows rows = Except.ok raw →
      List.Forall₂
        (fun r p => pyInt r.PERIO = Except.ok p.1 ∧ p.2 = r.ITRT_CNTNT)
        rows raw := by
  intro rows
  induction rows with
  | nil =>
    intro raw h
    obtain rfl := Except.ok.inj h
    exact List.Forall₂.nil
  | cons r rest ih =>
    intro raw h
    unfold parseRows at h
    cases hp : pyInt r.PERIO with
    | error e =>
      rw [hp] at h
      simp at h
    | ok p =>
      cases ht : parseRows rest with
      | error e =>
        rw [hp, ht] at h
        simp at h
      | ok tail =>
        rw [hp, ht] at h
        obtain rfl : (p, r.ITRT_CNTNT) :: tail = raw := by simpa using h
        exact List.Forall₂.cons ⟨hp, rfl⟩ (ih tail ht)

/-- Claim C7: when `_async_timetable_for_date` succeeds it returns one
`(period, subject)` pair per schedule row with the period parsed as an
integer, sorted ascending by period regardless of the source order; zero
rows yield an empty sequence, not an error. -/
theorem timetable_rows_sorted (rows : List TimetableApiRow)
    (res : List (Int × String))
    (h : _async_timetable_for_date rows = Except.ok res) :
    (∃ raw, parseRows rows = Except.ok raw ∧ res.Perm raw ∧
      raw.length = rows.length ∧
      List.Forall₂
        (fun r p => pyInt r.PERIO = Except.ok p.1 ∧ p.2 = r.ITRT_CNTNT)
        rows raw) ∧
    List.Sorted PairPeriodLe res ∧
    _async_timetable_for_date ([] : List TimetableApiRow) = Except.ok [] := by
  unfold _async_timetable_for_date at h
  cases hp : parseRows rows with
  | error e =>
    rw [hp] at h
    simp at h
  | ok raw =>
    rw [hp] at h
    obtain rfl : List.insertionSort PairPeriodLe raw = res := by simpa using h
    refine ⟨⟨raw, rfl, List.perm_insertionSort PairPeriodLe raw, ?_,
      parseRows_forall2 rows raw hp⟩,
      List.sorted_insertionSort PairPeriodLe raw, rfl⟩
    exact (List.Forall₂.length_eq (parseRows_forall2 rows raw hp)).symm

/-- Witness for C7: two source rows arriving out of period order come
back parsed and sorted ascending by period. -/
theorem timetable_rows_sorted_witness :
    (∃ raw,
      parseRows [TimetableApiRow.mk "2" "수학", TimetableApiRow.mk "1" "국어"] =
        Except.ok raw ∧
      ([((1 : Int), "국어"), ((2 : Int), "수학")]).Perm raw ∧
      raw.length = 2 ∧
      List.Forall₂
        (fun r p => pyInt r.PERIO = Except.ok p.1 ∧ p.2 = r.ITRT_CNTNT)
        [TimetableApiRow.mk "2" "수학", TimetableApiRow.mk "1" "국어"] raw) ∧
    List.Sorted PairPeriodLe [((1 : Int), "국어"), ((2 : Int), "수학")] ∧
    _async_timetable_for_date ([] : List TimetableApiRow) = Except.ok [] :=
  timetable_rows_sorted
    [TimetableApiRow.mk "2" "수학", TimetableApiRow.mk "1" "국어"]
    [((1 : Int), "국어"), ((2 : Int), "수학")] rfl

theorem splitBrAux_ne_nil (s acc : List Char) : splitBrAux s acc ≠ [] := by
  induction s, acc using splitBrAux.induct with
  | case1 acc => simp [splitBrAux]
  | case2 rest acc ih => simp [splitBrAux]
  | case3 c rest acc hno ih =>
    rw [splitBrAux.eq_3 acc c rest hno]
    exact ih

theorem splitBrAux_no_delim (s acc : List Char) :
    hasBr s = false → splitBrAux s acc = [acc.reverse ++ s] := by
  induction s, acc using splitBrAux.induct with
  | case1 acc =>
    intro _
    simp [splitBrAux]
  | case2 rest acc ih =>
    intro h
    simp [hasBr] at h
  | case3 c rest acc hno ih =>
    intro h
    rw [splitBrAux.eq_3 acc c rest hno]
    rw [hasBr.eq_3 c rest hno] at h
    rw [ih h]
    simp

/-- Claim C10: when the meal query returns a row, the dish list obtained
by splitting the raw field is never empty; a raw field with no delimiter,
the empty string included, yields exactly one (possibly empty) dish. -/
theorem meal_dishes_never_empty :
    (∀ (row : MealApiRow) (rest : List MealApiRow),
      1 ≤ (_async_meal_for_ymd (row :: rest)).length) ∧
    (∀ raw : String, hasBr raw.data = false →
      mealDishes raw = [String.mk (pyStrip raw.data)]) ∧
    mealDishes "" = [""] := by
  refine ⟨?_, ?_, by decide⟩
  · intro row rest
    show 1 ≤ (mealDishes row.DDISH_NM).length
    unfold mealDishes
    rw [List.length_map]
    cases hs : splitBrAux row.DDISH_NM.data [] with
    | nil => exact absurd hs (splitBrAux_ne_nil _ _)
    | cons a l => simp
  · intro raw h
    unfold mealDishes
    rw [splitBrAux_no_delim raw.data [] h]
    simp

/-- Witness for C10: a delimiter-free raw field yields its single
stripped dish, and a one-row response yields a non-empty dish list. -/
theorem meal_dishes_never_empty_witness :
    1 ≤ (_async_meal_for_ymd [MealApiRow.mk "김치"]).length ∧
    mealDishes "김치" = ["김치"] :=
  ⟨meal_dishes_never_empty.1 (MealApiRow.mk "김치") [],
    meal_dishes_never_empty.2.1 "김치" (by decide)⟩

end SchoolDashboard
